import Mathlib

/-!
Verification development for the excel-to-docx use-case converter.

The repository contains three convergent pipeline variants:
  * `excel_to_docx_table.py` — the hierarchical variant (sequence classifier,
    hierarchy builder, consolidated-table renderer);
  * `app.py` — a flat variant (header locator, column resolver with positional
    fallback, record aggregator);
  * `excel_to_docx.py` — an earlier flat variant (permissive header locator,
    decimal-safe sequence parsing).

The pandas/docx plumbing (file reading, cell iteration, document primitives)
is the external boundary: rows enter the model as lists of cell values already
decoded from the spreadsheet, and the renderer is modelled as the pure list of
table-row cell contents it emits.  All Python string operations used by the
core (strip, split, splitlines, lower/upper, accent folding as performed by
NFKD + combining-mark removal, substring search) are modelled explicitly below
so that every definition is executable.
-/

/-! ## Python-compatible string primitives -/

/-- Characters treated as whitespace by Python's `str.strip` / `str.split`
(ASCII whitespace plus the non-breaking space, the only non-ASCII whitespace
appearing in this repository's data). -/
def isPySpace (c : Char) : Bool :=
  c = ' ' ∨ c = '\t' ∨ c = '\n' ∨ c = '\r' ∨ c = '\x0b' ∨ c = '\x0c' ∨ c = '\xa0'

/-- `str.strip()` on a character list. -/
def pyStripL (l : List Char) : List Char :=
  ((l.dropWhile isPySpace).reverse.dropWhile isPySpace).reverse

/-- Python `str.strip()`. -/
def pyStrip (s : String) : String :=
  (pyStripL s.toList).asString

/-- Helper for `str.split()`: accumulate maximal runs of non-whitespace. -/
def pySplitAux : List Char → List Char → List (List Char)
  | [], cur => if cur = [] then [] else [cur.reverse]
  | c :: rest, cur =>
    if isPySpace c then
      if cur = [] then pySplitAux rest [] else cur.reverse :: pySplitAux rest []
    else
      pySplitAux rest (c :: cur)

/-- Python `str.split()` (no argument: split on whitespace runs, no empties). -/
def pySplit (s : String) : List String :=
  (pySplitAux s.toList []).map List.asString

/-- Helper for `str.splitlines()`: split on `\r\n`, `\r`, `\n`; no trailing
empty line for a trailing terminator; the empty string yields no lines. -/
def pySplitlinesAux : List Char → List Char → List String
  | [], [] => []
  | [], acc => [acc.reverse.asString]
  | '\r' :: '\n' :: rest, acc => acc.reverse.asString :: pySplitlinesAux rest []
  | '\r' :: rest, acc => acc.reverse.asString :: pySplitlinesAux rest []
  | '\n' :: rest, acc => acc.reverse.asString :: pySplitlinesAux rest []
  | c :: rest, acc => pySplitlinesAux rest (c :: acc)

/-- Python `str.splitlines()` restricted to the line terminators occurring in
spreadsheet cell data (`\n`, `\r`, `\r\n`). -/
def pySplitlines (s : String) : List String :=
  pySplitlinesAux s.toList []

/-- Python `str.lower()` on one character: ASCII case plus the accented
letters appearing in this repository's header labels. -/
def pyLowerChar (c : Char) : Char :=
  match c with
  | 'Ê' => 'ê' | 'Đ' => 'đ' | 'Á' => 'á' | 'Â' => 'â' | 'Ô' => 'ô'
  | 'Ộ' => 'ộ' | 'Ứ' => 'ứ' | 'Ạ' => 'ạ' | 'Ị' => 'ị' | 'Ầ' => 'ầ'
  | _ => c.toLower

/-- Python `str.lower()` over the modelled character set. -/
def pyLower (s : String) : String :=
  (s.toList.map pyLowerChar).asString

/-- Python `str.upper()` (ASCII; sufficient for roman-numeral matching). -/
def pyUpper (s : String) : String :=
  (s.toList.map Char.toUpper).asString

/-- NFKD decomposition followed by removal of combining marks, per character:
accented Latin letters lose their accents; `đ`/`Đ` (a stroked letter, not an
accented composition) is unchanged.  Restricted to the characters appearing in
the repository's Vietnamese header labels. -/
def foldAccentChar (c : Char) : Char :=
  match c with
  | 'ê' => 'e' | 'Ê' => 'E' | 'é' => 'e' | 'è' => 'e' | 'ẹ' => 'e'
  | 'ế' => 'e' | 'ề' => 'e' | 'ệ' => 'e'
  | 'á' => 'a' | 'à' => 'a' | 'ả' => 'a' | 'ã' => 'a' | 'ạ' => 'a'
  | 'â' => 'a' | 'ấ' => 'a' | 'ầ' => 'a' | 'ậ' => 'a' | 'ă' => 'a'
  | 'Á' => 'A' | 'Â' => 'A' | 'Ạ' => 'A'
  | 'í' => 'i' | 'ì' => 'i' | 'ị' => 'i' | 'ỉ' => 'i' | 'Ị' => 'I'
  | 'ó' => 'o' | 'ò' => 'o' | 'ọ' => 'o' | 'ộ' => 'o' | 'ô' => 'o'
  | 'ồ' => 'o' | 'ố' => 'o' | 'ơ' => 'o' | 'ớ' => 'o' | 'ờ' => 'o'
  | 'Ô' => 'O' | 'Ộ' => 'O'
  | 'ú' => 'u' | 'ù' => 'u' | 'ụ' => 'u' | 'ủ' => 'u' | 'ư' => 'u'
  | 'ứ' => 'u' | 'ừ' => 'u' | 'ự' => 'u' | 'Ứ' => 'U'
  | 'ý' => 'y' | 'ỵ' => 'y'
  | _ => c

/-- NFKD + combining-mark removal over a string. -/
def foldAccents (s : String) : String :=
  (s.toList.map foldAccentChar).asString

/-- `text.replace("\xa0", " ")`. -/
def replaceNbsp (s : String) : String :=
  (s.toList.map fun c => if c = '\xa0' then ' ' else c).asString

/-- `" ".join(text.split())`: collapse internal whitespace runs. -/
def collapseWs (s : String) : String :=
  String.intercalate " " (pySplit s)

/-- Boolean list-prefix test (for substring search). -/
def listHasPre : List Char → List Char → Bool
  | [], _ => true
  | _ :: _, [] => false
  | p :: ps, c :: cs => p = c && listHasPre ps cs

/-- Boolean substring search (`pat in s` for Python strings). -/
def listHasSub (pat : List Char) : List Char → Bool
  | [] => listHasPre pat []
  | c :: cs => listHasPre pat (c :: cs) || listHasSub pat cs

/-- Python `pat in s` substring containment. -/
def strHasSub (pat s : String) : Bool :=
  listHasSub pat.toList s.toList

/-- Python `s.startswith(pre)`. -/
def pyStartsWith (s pre : String) : Bool :=
  listHasPre pre.toList s.toList

/-- Python `s.endswith(suf)`. -/
def pyEndsWith (s suf : String) : Bool :=
  listHasPre suf.toList.reverse s.toList.reverse

/-- Python `str.isdigit()` for the ASCII range (spreadsheet sequence cells). -/
def pyIsdigit (s : String) : Bool :=
  s.toList ≠ [] && s.toList.all fun c => '0' ≤ c && c ≤ '9'

/-! ## Sequence classifier (`excel_to_docx_table.py`, `_is_level1/2/3`,
`_normalize_stt`) -/

/-- Drop one trailing `.` or `)` if present — the `[\.\)]?$` tail shared by
the three level regexes. -/
def stripSeqSuffixL (l : List Char) : List Char :=
  match l.reverse with
  | c :: rest => if c = '.' ∨ c = ')' then rest.reverse else l
  | [] => l

/-- `'A' ≤ c ≤ 'Z'` — the regex character class `[A-Z]`. -/
def isUpperAZ (c : Char) : Bool :=
  'A' ≤ c && c ≤ 'Z'

/-- `_is_level1(stt)`: `re.match(r"^([A-Z])[\.\)]?$", stt)`, returning the
match flag and the captured letter. -/
def is_level1 (stt : String) : Bool × Option String :=
  match stripSeqSuffixL stt.toList with
  | [c] => if isUpperAZ c then (true, some (String.mk [c])) else (false, none)
  | _ => (false, none)

/-- The fixed roman-numeral whitelist I..XX of `_is_level2`. -/
def romanList : List String :=
  ["I", "II", "III", "IV", "V", "VI", "VII", "VIII", "IX", "X",
   "XI", "XII", "XIII", "XIV", "XV", "XVI", "XVII", "XVIII", "XIX", "XX"]

/-- `_is_level2(stt)`: case-insensitive exact match of a whitelist roman
numeral with optional `.`/`)` suffix; the code is the numeral uppercased. -/
def is_level2 (stt : String) : Bool × Option String :=
  let u := ((stripSeqSuffixL stt.toList).map Char.toUpper).asString
  if u ∈ romanList then (true, some u) else (false, none)

/-- `_is_level3(stt)`: `stt.isdigit()` fast path returning `stt` itself,
otherwise `re.match(r"^(\d+)[\.\)]?$", stt)` returning the digit group. -/
def is_level3 (stt : String) : Bool × Option String :=
  if pyIsdigit stt then (true, some stt)
  else
    let b := (stripSeqSuffixL stt.toList).asString
    if pyIsdigit b then (true, some b) else (false, none)

/-- A raw sequence cell as handed to `_normalize_stt`: missing (None/NaN), a
number (int/float; modelled exactly on integral values), or text. -/
inductive SeqCell where
  | na : SeqCell
  | num : ℚ → SeqCell
  | str : String → SeqCell
deriving DecidableEq, Repr

/-- Decimal rendering of a non-integral numeric cell.  Stand-in for Python's
float `repr`; exact on the integral values actually exercised (where the
source takes the `str(int(value))` branch instead). -/
def numRepr (q : ℚ) : String :=
  toString q

/-- `_normalize_stt(value)`: None/NaN ↦ `""`; integral numbers collapse to
their integer decimal form (`1.0 ↦ "1"`); other values are `str(...).strip()`. -/
def normalize_stt : SeqCell → String
  | .na => ""
  | .num q => if q.den = 1 then toString q.num else pyStrip (numRepr q)
  | .str s => pyStrip s

/-- The per-row classification verdict of the hierarchical pipeline. -/
inductive SeqCode where
  | level1 : String → SeqCode
  | level2 : String → SeqCode
  | level3 : String → SeqCode
  | noSeq : SeqCode
deriving DecidableEq, Repr

/-- The classification priority of `read_excel`: level 1, then level 2, then
level 3, each check guarded by `if stt` (skipped on the empty string). -/
def classify_stt (stt : String) : SeqCode :=
  let l1 := if stt ≠ "" then is_level1 stt else (false, none)
  if l1.1 then .level1 (l1.2.getD "")
  else
    let l2 := if stt ≠ "" then is_level2 stt else (false, none)
    if l2.1 then .level2 (l2.2.getD "")
    else
      let l3 := if stt ≠ "" then is_level3 stt else (false, none)
      if l3.1 then .level3 (l3.2.getD "") else .noSeq

example : is_level1 "A." = (true, some "A") := by decide
example : is_level1 "a" = (false, none) := by decide
example : is_level2 "iv)" = (true, some "IV") := by decide
example : is_level2 "XXI" = (false, none) := by decide
example : is_level3 "12." = (true, some "12") := by decide
example : is_level3 "12.3" = (false, none) := by decide
example : classify_stt (normalize_stt (.num 1)) = .level3 "1" := by decide
example : classify_stt "I" = .level1 "I" := by decide


/-! ## Hierarchy builder (`excel_to_docx_table.py`, `read_excel`) -/

/-- A use-case node (`current_usecase` dict). -/
structure UseCase where
  code : String
  name : String
  actor : String
  bmt : String
  complexity : String
  transactions : List String
deriving DecidableEq, Repr

/-- A level-2 group node (`current_group` dict); anonymous groups have
`code = none`. -/
structure HGroup where
  code : Option String
  name : String
  usecases : List UseCase
deriving DecidableEq, Repr

/-- A level-1 module node (`current_module` dict). -/
structure HModule where
  code : String
  name : String
  groups : List HGroup
deriving DecidableEq, Repr

/-- The builder's mutable state.  In the source, a group created while a
module is open is appended into `module["groups"]` at creation time and then
mutated in place; the model keeps the open group outside the module's list
and records with `curAttached` whether that aliasing append has happened,
materialising it when the group is flushed. -/
structure BState where
  modules : List HModule
  curModule : Option HModule
  curGroup : Option HGroup
  curAttached : Bool
  curUsecase : Option UseCase
deriving DecidableEq, Repr

/-- The initial builder state: nothing open. -/
def initBState : BState :=
  { modules := [], curModule := none, curGroup := none,
    curAttached := false, curUsecase := none }

/-- The synthesized default module (`{"code": "A", "name": "PHÂN HỆ MẶC ĐỊNH",
"groups": []}`). -/
def defaultModule : HModule :=
  { code := "A", name := "PHÂN HỆ MẶC ĐỊNH", groups := [] }

/-- `flush_usecase()`: append the open use-case to the open group, creating
(and attaching, when a module is open) an anonymous group if none is open. -/
def flushUsecase (s : BState) : BState :=
  match s.curUsecase with
  | none => s
  | some uc =>
    match s.curGroup with
    | some g =>
      { s with curGroup := some { g with usecases := g.usecases ++ [uc] },
               curUsecase := none }
    | none =>
      { s with curGroup := some { code := none, name := "", usecases := [uc] },
               curAttached := s.curModule.isSome,
               curUsecase := none }

/-- `flush_group()`: close the open group into the open module.  The source
guards the append with `current_group not in current_module["groups"]`
(Python value equality): an attached group is the same object as the one
already in the list, so its deferred append always materialises; a detached
group is dropped when a value-equal group is already present. -/
def flushGroup (s : BState) : BState :=
  match s.curGroup with
  | none => s
  | some g =>
    match s.curModule with
    | none => { s with curGroup := none }
    | some m =>
      if s.curAttached then
        { s with curModule := some { m with groups := m.groups ++ [g] },
                 curGroup := none }
      else if g ∈ m.groups then
        { s with curGroup := none }
      else
        { s with curModule := some { m with groups := m.groups ++ [g] },
                 curGroup := none }

/-- `flush_module()`: close the open module into the output list, guarded by
`current_module not in modules` (Python value equality).  Every call site
runs `flush_group()` first, so the open group is always closed here. -/
def flushModule (s : BState) : BState :=
  match s.curModule with
  | none => s
  | some m =>
    { s with modules := if m ∈ s.modules then s.modules else s.modules ++ [m],
             curModule := none }

/-- One extracted input row: the normalized sequence cell and the five
`str(...).strip()`-ed field cells, as computed at the top of the row loop. -/
structure Row where
  stt : String
  name : String
  actor : String
  trans : String
  bmt : String
  complexity : String
deriving DecidableEq, Repr

/-- `re.sub(r"^\d+[\.\)]?\s*", "", name).strip()` — strip the recovered
leading number token from a name. -/
def stripLeadingNumber (name : String) : String :=
  let cs := name.toList
  let rest := cs.dropWhile fun c => '0' ≤ c && c ≤ '9'
  if rest.length = cs.length then pyStrip name
  else
    let rest' := match rest with
      | c :: t => if c = '.' ∨ c = ')' then t else rest
      | [] => []
    pyStrip (rest'.dropWhile isPySpace).asString

/-- The level-3 test with name-token recovery: a row whose sequence cell is
not level 3 but whose name starts with an integer token is reclassified, the
token becoming the code and being stripped from the name.  (The source indexes
`name.split()[0]`; a non-empty all-whitespace name — unreachable, since names
are stripped on extraction — is treated as no recovery.) -/
def classifyRowL3 (stt name : String) : Option (String × String) :=
  let l3 := if stt ≠ "" then is_level3 stt else (false, none)
  if l3.1 then some (l3.2.getD "", name)
  else if name ≠ "" then
    match pySplit name with
    | [] => none
    | tok :: _ =>
      let l3n := is_level3 (pyStrip tok)
      if l3n.1 then some (l3n.2.getD "", stripLeadingNumber name) else none
  else none

/-- The action a row triggers in the builder loop. -/
inductive RowClass where
  | skip : RowClass
  | l1 : String → RowClass
  | l2 : String → RowClass
  | l3 : String → String → RowClass
  | cont : RowClass
deriving DecidableEq, Repr

/-- Row dispatch, in the order of `read_excel`'s loop: comment marker skip,
blank-row skip, level 1, level 2, level 3 (with name recovery), else
continuation. -/
def classifyRow (r : Row) : RowClass :=
  if pyStartsWith r.stt "#" then .skip
  else if r.stt = "" ∧ r.name = "" ∧ r.trans = "" then .skip
  else
    let l1 := if r.stt ≠ "" then is_level1 r.stt else (false, none)
    if l1.1 then .l1 (l1.2.getD "")
    else
      let l2 := if r.stt ≠ "" then is_level2 r.stt else (false, none)
      if l2.1 then .l2 (l2.2.getD "")
      else
        match classifyRowL3 r.stt r.name with
        | some (c, nm) => .l3 c nm
        | none => .cont

/-- The level-3 branch body of the row loop, applied to the state after
`flush_usecase()`: synthesize the default module if none is open, synthesize
and attach an anonymous group if none is open, then open the new use-case. -/
def openL3 (t : BState) (uc : UseCase) : BState :=
  let s2 := if t.curModule.isNone then { t with curModule := some defaultModule } else t
  let s3 := if s2.curGroup.isNone then
              { s2 with curGroup := some { code := none, name := "", usecases := [] },
                        curAttached := true }
            else s2
  { s3 with curUsecase := some uc }

/-- One iteration of `read_excel`'s row loop. -/
def processRow (s : BState) (r : Row) : BState :=
  match classifyRow r with
  | .skip => s
  | .l1 c =>
    let s1 := flushModule (flushGroup (flushUsecase s))
    { s1 with curModule := some { code := c, name := r.name, groups := [] } }
  | .l2 c =>
    let s1 := flushGroup (flushUsecase s)
    let s2 := if s1.curModule.isNone then { s1 with curModule := some defaultModule } else s1
    { s2 with curGroup := some { code := some c, name := r.name, usecases := [] },
              curAttached := false }
  | .l3 c nm =>
    openL3 (flushUsecase s)
      { code := c, name := nm, actor := r.actor, bmt := r.bmt,
        complexity := r.complexity,
        transactions := if r.trans = "" then [] else [r.trans] }
  | .cont =>
    if r.trans ≠ "" ∧ s.curUsecase.isSome then
      match s.curUsecase with
      | some uc => { s with curUsecase := some { uc with transactions := uc.transactions ++ [r.trans] } }
      | none => s
    else s

/-- `read_excel`'s loop over the extracted row stream followed by the final
leaf-to-root flush; returns the module list. -/
def readExcelRows (rows : List Row) : List HModule :=
  (flushModule (flushGroup (flushUsecase (rows.foldl processRow initBState)))).modules

/-- Total number of use-cases in a built tree. -/
def totalUsecases (ms : List HModule) : Nat :=
  (ms.map fun m => ((m.groups.map fun g => g.usecases.length).sum)).sum

/-- The `main` gate of the hierarchical variant: report and exit non-zero
when `read_excel` returned an empty module list, otherwise proceed to
rendering.  (Document generation and the exit code are the external
boundary; the `Except` value models diagnostic-and-exit vs. proceed.) -/
def mainConvert (rows : List Row) : Except String (List HModule) :=
  if readExcelRows rows = [] then .error "Không tìm thấy dữ liệu Use-case."
  else .ok (readExcelRows rows)

example :
    readExcelRows [⟨"A", "Auth Module", "", "", "", ""⟩,
                   ⟨"1", "Login", "User", "Step1", "", ""⟩] =
      [{ code := "A", name := "Auth Module",
         groups := [{ code := none, name := "",
                      usecases := [{ code := "1", name := "Login", actor := "User",
                                     bmt := "", complexity := "",
                                     transactions := ["Step1"] }] }] }] := by
  rfl

example :
    readExcelRows [⟨"", "2. Pay", "U", "T1", "b", "c"⟩] =
      [{ code := "A", name := "PHÂN HỆ MẶC ĐỊNH",
         groups := [{ code := none, name := "",
                      usecases := [{ code := "2", name := "Pay", actor := "U",
                                     bmt := "b", complexity := "c",
                                     transactions := ["T1"] }] }] }] := by
  rfl

/-! ## Consolidated-table renderer (`excel_to_docx_table.py`, `generate_word`) -/

/-- The fixed header row of the consolidated table. -/
def tableHeaderRow : List String :=
  ["STT", "Tên Use-case", "Tác nhân", "Giao dịch", "BMT", "Độ phức tạp"]

/-- The cell texts of the rows one use-case contributes:
`transactions = usecase["transactions"] or [""]` (an empty list yields the
single placeholder `""`), then one row per entry, the use-case fields filled
only at index 0 and the transaction always in column 3. -/
def renderUsecase (uc : UseCase) : List (List String) :=
  let ts := if uc.transactions = [] then [""] else uc.transactions
  (List.range ts.length).map fun i =>
    if i = 0 then [uc.code, uc.name, uc.actor, ts.getD 0 "", uc.bmt, uc.complexity]
    else ["", "", "", ts.getD i "", "", ""]

/-- The cell texts of a module's level-1 row. -/
def renderModuleRow (m : HModule) : List String :=
  [m.code, m.name, "", "", "", ""]

/-- The rows a group contributes: its level-2 row only when its code is
truthy (`if group["code"]:` — `None` and `""` are falsy), then the rows of
its use-cases. -/
def renderGroup (g : HGroup) : List (List String) :=
  (match g.code with
   | some c => if c ≠ "" then [[c, g.name, "", "", "", ""]] else []
   | none => []) ++ g.usecases.flatMap renderUsecase

/-- The full consolidated table: header row, then per module its shaded row
followed by its groups' rows. -/
def renderModules (ms : List HModule) : List (List String) :=
  tableHeaderRow :: ms.flatMap fun m => renderModuleRow m :: m.groups.flatMap renderGroup

example :
    renderUsecase { code := "1", name := "Login", actor := "U", bmt := "b",
                    complexity := "c", transactions := ["t1", "t2"] } =
      [["1", "Login", "U", "t1", "b", "c"], ["", "", "", "t2", "", ""]] := by rfl

example :
    renderUsecase { code := "1", name := "Login", actor := "U", bmt := "b",
                    complexity := "c", transactions := [] } =
      [["1", "Login", "U", "", "b", "c"]] := by rfl

/-! ## Record aggregator (`app.py`: `first_non_empty`, `join_non_empty`,
the group-reduction loop of `main`) -/

/-- `first_non_empty(values)`: return the first value whose `str(...).strip()`
is non-empty, else `""`.  (Values reach it as strings after `df.fillna("")`.) -/
def first_non_empty : List String → String
  | [] => ""
  | v :: vs => if pyStrip v ≠ "" then v else first_non_empty vs

/-- The lines one cell contributes inside `join_non_empty`: skipped entirely
when its strip is empty, otherwise each `splitlines()` line stripped, empties
dropped. -/
def cellLines (v : String) : List String :=
  if pyStrip v = "" then []
  else (pySplitlines v).filterMap fun l => if pyStrip l = "" then none else some (pyStrip l)

/-- The accumulator loop of `join_non_empty` over the value list. -/
def joinNonEmptyAux : List String → List String → List String
  | [], lines => lines
  | v :: vs, lines => joinNonEmptyAux vs (lines ++ cellLines v)

/-- `join_non_empty(values)`: `"\n".join(lines)` for the accumulated lines.
(The `pd.isna` guard is identity on the string values this model carries.) -/
def join_non_empty (values : List String) : String :=
  String.intercalate "\n" (joinNonEmptyAux values [])

/-- One input row of the flat pipeline after `fillna("")` and forward fill:
six string-valued fields. -/
structure FlatRow where
  stt : String
  name : String
  actor : String
  bmt : String
  complexity : String
  trans : String
deriving DecidableEq, Repr

/-- The record built for one `(STT, Tên Use-case)` group in `app.py`'s
`main`: scalars via `first_non_empty` over the group's column lists, the
transaction text via `join_non_empty` over the non-empty transaction cells. -/
def aggregateGroup (name : String) (g : List FlatRow) : FlatRow :=
  { stt := first_non_empty (g.map (·.stt)),
    name := name,
    actor := first_non_empty (g.map (·.actor)),
    bmt := first_non_empty (g.map (·.bmt)),
    complexity := first_non_empty (g.map (·.complexity)),
    trans := join_non_empty ((g.map (·.trans)).filter fun v => pyStrip v ≠ "") }

/-- The specification-side line list: for the non-empty cells in row order,
all their non-empty stripped lines. -/
def specLines (values : List String) : List String :=
  (values.filter fun v => pyStrip v ≠ "").flatMap fun v =>
    ((pySplitlines v).map pyStrip).filter (· ≠ "")

example :
    join_non_empty ["Enter creds", "", " Click submit \nDone "] =
      "Enter creds\nClick submit\nDone" := by rfl

/-! ## Decimal-safe sequence parsing (`excel_to_docx.py`, `parse_stt_value`) -/

/-- Parse an exponent-free decimal numeral (optional sign, digits, optional
fractional part) into the scaled-integer form `Decimal` uses: a coefficient
and a power-of-ten scale, the value being `coeff / 10^scale`.  Special values
(`NaN`, infinities) and malformed text map to `none`; `parse_stt_value`
treats both identically (no integer result). -/
def parseDecimal (s : String) : Option (ℤ × ℕ) :=
  let l := s.toList
  let sign : ℤ := match l with
    | '-' :: _ => -1
    | _ => 1
  let l := match l with
    | '-' :: rest => rest
    | '+' :: rest => rest
    | _ => l
  let intPart := l.takeWhile fun c => '0' ≤ c && c ≤ '9'
  let rest := l.dropWhile fun c => '0' ≤ c && c ≤ '9'
  match rest with
  | [] =>
    if intPart = [] then none
    else some (sign * (intPart.foldl (fun a c => a * 10 + (c.toNat - 48)) 0 : ℕ), 0)
  | '.' :: frac =>
    if frac.all (fun c => '0' ≤ c && c ≤ '9') ∧ (intPart ≠ [] ∨ frac ≠ []) then
      let digits := intPart ++ frac
      some (sign * (digits.foldl (fun a c => a * 10 + (c.toNat - 48)) 0 : ℕ), frac.length)
    else none
  | _ => none

/-- `parse_stt_value(value)` on a text cell: `Decimal(text)`, rejected when
empty, unparseable, or non-integral (`number != number.to_integral_value()`);
otherwise the clean integer string and the integer itself.  (`pd.isna`
inputs are rejected before this point.) -/
def parse_stt_value (text : String) : Bool × Option String × Option ℤ :=
  let t := pyStrip text
  if t = "" then (false, none, none)
  else
    match parseDecimal t with
    | none => (false, none, none)
    | some (coeff, scale) =>
      if coeff % ((10 : ℤ) ^ scale) = 0 then
        let iv := coeff / ((10 : ℤ) ^ scale)
        (true, some (toString iv), some iv)
      else (false, none, none)

example : parse_stt_value "1.0" = (true, some "1", some 1) := by rfl
example : parse_stt_value "1" = (true, some "1", some 1) := by rfl
example : parse_stt_value "2.5" = (false, none, none) := by rfl
example : parse_stt_value "I" = (false, none, none) := by rfl

/-! ## Header locators (three variants) -/

/-- `normalize_text` of `app.py`: replace non-breaking spaces, strip,
collapse whitespace runs, NFKD + combining-mark removal, lower-case. -/
def normalize_text (s : String) : String :=
  pyLower (foldAccents (collapseWs (pyStrip (replaceNbsp s))))

/-- `normalize_text` of `excel_to_docx.py`: as above but without the
whitespace collapse (`pd.isna` inputs are already `""` after `fillna`). -/
def normalize_text_b (s : String) : String :=
  pyLower (foldAccents (pyStrip (replaceNbsp s)))

/-- `clean_header_value` of `app.py`: replace non-breaking spaces, strip,
collapse whitespace runs. -/
def clean_header_value (s : String) : String :=
  collapseWs (pyStrip (replaceNbsp s))

/-- The name-token membership test of `app.py`'s `find_header_row`:
`"ten use-case" in row_values or "ten usecase" in row_values`. -/
def rowHasNameA (r : List String) : Bool :=
  let vs := r.map normalize_text
  vs.contains "ten use-case" || vs.contains "ten usecase"

/-- Index scan of `app.py`'s `find_header_row`. -/
def findHeaderRowAppAux : List (List String) → Nat → Except String Nat
  | [], _ => .error "Header row not found: missing \"Tên Use-case\""
  | r :: rs, i => if rowHasNameA r then .ok i else findHeaderRowAppAux rs (i + 1)

/-- `find_header_row` of `app.py` (strict): first row whose normalized values
contain a name label, error when none does. -/
def find_header_row_app (rows : List (List String)) : Except String Nat :=
  findHeaderRowAppAux rows 0

/-- The name-token membership test of `excel_to_docx.py`'s
`find_header_row` (same tokens, its own normalizer). -/
def rowHasNameB (r : List String) : Bool :=
  let vs := r.map normalize_text_b
  vs.contains "ten use-case" || vs.contains "ten usecase"

/-- Index scan of `excel_to_docx.py`'s `find_header_row`. -/
def findHeaderRowBAux : List (List String) → Nat → Nat
  | [], _ => 0
  | r :: rs, i => if rowHasNameB r then i else findHeaderRowBAux rs (i + 1)

/-- `find_header_row` of `excel_to_docx.py` (permissive): first row whose
normalized values contain a name label, falling back to row 0. -/
def find_header_row_b (rows : List (List String)) : Nat :=
  findHeaderRowBAux rows 0

/-- The sequence-label test of `_find_header_row` in
`excel_to_docx_table.py`: some stripped lower-cased cell fully matches
`^stt$|^s$|^tt$`. -/
def rowHasSttT (r : List String) : Bool :=
  r.any fun c =>
    let n := pyLower (pyStrip c)
    n = "stt" || n = "s" || n = "tt"

/-- The name-label test of `_find_header_row`: some stripped lower-cased
cell contains one of the substrings
`tên use-case | ten use-case | use-case | use case`. -/
def rowHasNameT (r : List String) : Bool :=
  r.any fun c =>
    let n := pyLower (pyStrip c)
    strHasSub "tên use-case" n || strHasSub "ten use-case" n ||
      strHasSub "use-case" n || strHasSub "use case" n

/-- Both-token test of `_find_header_row` for one row. -/
def rowBothT (r : List String) : Bool :=
  rowHasSttT r && rowHasNameT r

/-- Index scan of `_find_header_row` (the `row.isna().all()` skip can never
fire after `astype(str)` and is omitted). -/
def findHeaderRowTblAux : List (List String) → Nat → Nat
  | [], _ => 0
  | r :: rs, i => if rowBothT r then i else findHeaderRowTblAux rs (i + 1)

/-- `_find_header_row(raw_df, max_rows=30)` of `excel_to_docx_table.py`:
scan the first `min(30, len)` rows for one containing both a sequence label
and a name label; fall back to row 0. -/
def find_header_row_tbl (rows : List (List String)) : Nat :=
  findHeaderRowTblAux (rows.take 30) 0

example : find_header_row_tbl [["x"], ["stt", "Tên Use-case"]] = 1 := by rfl
example : find_header_row_tbl [["x"], ["ten use-case"]] = 0 := by rfl
example : find_header_row_app [["x"], ["Tên Use-case"]] = .ok 1 := by rfl

/-! ## Column resolver (`app.py`, `map_columns`) -/

/-- The canonical schema (`REQUIRED_COLUMNS`). -/
def requiredCols : List String :=
  ["STT", "Tên Use-case", "Tác nhân", "Giao dịch", "BMT", "Độ phức tạp"]

/-- `normalized_map` of `map_columns`. -/
def normalizedMapA : List (String × String) :=
  [("stt", "STT"), ("s", "STT"), ("#", "STT"),
   ("ten use-case", "Tên Use-case"), ("ten usecase", "Tên Use-case"),
   ("tac nhan", "Tác nhân"), ("giao dich", "Giao dịch"),
   ("bmt", "BMT"), ("do phuc tap", "Độ phức tạp")]

/-- A data frame at the resolver boundary: named columns over rows of
optional cells (`none` models NaN; data cells of this pipeline are text). -/
structure DFrame where
  cols : List String
  rows : List (List (Option String))
deriving DecidableEq, Repr

/-- The header-renaming pass of `map_columns`: each column name is cleaned,
normalized, and replaced by its canonical target when the normalized key is
in `normalized_map`, else kept as its cleaned self. -/
def renameDF (df : DFrame) : DFrame :=
  { df with
    cols := df.cols.map fun col =>
      let name := clean_header_value col
      (normalizedMapA.lookup (normalize_text name)).getD name }

/-- Column `j` is entirely NaN. -/
def colAllNa (df : DFrame) (j : Nat) : Bool :=
  df.rows.all fun r => (r.getD j none) = none

/-- The column indices that survive `dropna(axis=1, how="all")`. -/
def dropNaKeep (df : DFrame) : List Nat :=
  (List.range df.cols.length).filter fun j => ¬ colAllNa df j

/-- Number of columns that survive `dropna(axis=1, how="all")`. -/
def countNonNaCols (df : DFrame) : Nat :=
  (dropNaKeep df).length

/-- `apply_positional_mapping(frame)`: drop all-NaN columns; fail if fewer
than six remain; else rename the first six to the canonical fields, keeping
extra trailing columns under their cleaned names. -/
def applyPositional (df : DFrame) : Except String DFrame :=
  if (dropNaKeep df).length < 6 then .error "Not enough columns to map by position."
  else
    .ok { cols := requiredCols ++
            (((dropNaKeep df).map fun j => df.cols.getD j "").drop 6).map clean_header_value,
          rows := df.rows.map fun r => (dropNaKeep df).map fun j => r.getD j none }

/-- The `Giao dịch`-column emptiness test:
`df["Giao dịch"].fillna("").astype(str).str.strip().eq("").all()`. -/
def giaoDichEmpty (df : DFrame) : Bool :=
  let j := df.cols.indexOf "Giao dịch"
  df.rows.all fun r => pyStrip ((r.getD j none).getD "") = ""

/-- `map_columns(df)`: rename by label; if required fields are missing,
fall back to positional mapping; else if the matched transaction column is
entirely empty, also fall back; else keep the renamed frame.  (The source
binds the renamed frame and its `missing` list to locals; they are inlined
here.) -/
def map_columns (df : DFrame) : Except String DFrame :=
  if (requiredCols.filter fun c => ¬ (renameDF df).cols.contains c) ≠ [] then
    applyPositional (renameDF df)
  else if (renameDF df).cols.contains "Giao dịch" then
    if giaoDichEmpty (renameDF df) then applyPositional (renameDF df)
    else .ok (renameDF df)
  else .ok (renameDF df)

/-! ## Output-path handling (`excel_to_docx_table.py`, `main`) -/

/-- The hard-coded output directory of the hierarchical CLI. -/
def OUTPUT_DIR : String := "C:\\Users\\Admin\\Documents\\ids"

/-- One step of the basename scan: restart after each path separator
(both `/` and `\` separate components under the Windows path rules the
hard-coded output directory implies). -/
def sepStep (acc : List Char) (c : Char) : List Char :=
  if c = '/' ∨ c = '\\' then [] else acc ++ [c]

/-- `os.path.basename`: the characters after the last path separator. -/
def pyBasename (s : String) : String :=
  (s.toList.foldl sepStep []).asString

/-- The output-path computation of `main` for an explicit second argument:
take the basename, append `.docx` unless the lower-cased name already ends
with it, and join onto the fixed output directory. -/
def outputWordPath (arg : String) : String :=
  OUTPUT_DIR ++ "\\" ++
    (if pyEndsWith (pyLower (pyBasename arg)) ".docx" then pyBasename arg
     else pyBasename arg ++ ".docx")

example : outputWordPath "/home/x/report" = "C:\\Users\\Admin\\Documents\\ids\\report.docx" := by rfl
example : outputWordPath "D:\\out\\Report.DOCX" = "C:\\Users\\Admin\\Documents\\ids\\Report.DOCX" := by rfl

/-! ## Shared lemmas -/

theorem toList_append (a b : String) : (a ++ b).toList = a.toList ++ b.toList :=
  String.data_append a b

theorem asString_toList (s : String) : s.toList.asString = s := by
  cases s
  rfl

theorem stripSeq_append_sep (l : List Char) (c : Char) (hc : c = '.' ∨ c = ')') :
    stripSeqSuffixL (l ++ [c]) = l := by
  unfold stripSeqSuffixL
  rw [List.reverse_append]
  rcases hc with rfl | rfl <;> simp

theorem stripSeq_no_sep (l : List Char)
    (h : ∀ c, l.getLast? = some c → ¬(c = '.' ∨ c = ')')) :
    stripSeqSuffixL l = l := by
  cases hrev : l.reverse with
  | nil =>
    unfold stripSeqSuffixL
    rw [hrev]
  | cons c rest =>
    have hc : l.getLast? = some c := by
      rw [← List.head?_reverse, hrev]
      rfl
    unfold stripSeqSuffixL
    rw [hrev]
    exact if_neg (h c hc)

theorem romanLast : ∀ u ∈ romanList,
    u.toList.getLast? = some 'I' ∨ u.toList.getLast? = some 'V' ∨
      u.toList.getLast? = some 'X' := by
  decide

theorem is_level1_of_strip (s : String) (c : Char) (hc : isUpperAZ c = true)
    (h : stripSeqSuffixL s.toList = [c]) :
    is_level1 s = (true, some (String.mk [c])) := by
  unfold is_level1
  rw [h]
  simp [hc]

theorem is_level2_of_strip (s : String) (h : stripSeqSuffixL s.toList = l)
    (hmem : (l.map Char.toUpper).asString ∈ romanList) :
    is_level2 s = (true, some ((l.map Char.toUpper).asString)) := by
  unfold is_level2
  rw [h]
  simp [hmem]

theorem is_level3_digits (s : String) (h : pyIsdigit s = true) :
    is_level3 s = (true, some s) := by
  unfold is_level3
  simp [h]

/-- **C1**: raw-sequence-cell classification is syntactic and per-level:
every single uppercase letter A–Z with optional `.`/`)` suffix passes
`_is_level1` with that letter as code; every case variant of a roman numeral
from the fixed set I..XX with optional suffix passes `_is_level2` with the
uppercased numeral; every non-empty all-digits string with optional suffix
passes `_is_level3` with that digit string (the decimal numeral of the
integer) as code. -/
theorem classifier_per_level_spec :
    (∀ c : Char, isUpperAZ c = true → ∀ suf ∈ (["", ".", ")"] : List String),
        is_level1 (String.mk [c] ++ suf) = (true, some (String.mk [c]))) ∧
    (∀ s : String, pyUpper s ∈ romanList → ∀ suf ∈ (["", ".", ")"] : List String),
        is_level2 (s ++ suf) = (true, some (pyUpper s))) ∧
    (∀ s : String, pyIsdigit s = true → ∀ suf ∈ (["", ".", ")"] : List String),
        is_level3 (s ++ suf) = (true, some s)) := by
  refine ⟨?_, ?_, ?_⟩
  · intro c hc suf hsuf
    have hne : ¬(c = '.' ∨ c = ')') := by
      rintro (rfl | rfl) <;> exact absurd hc (by decide)
    have hlast : ∀ d, ([c] : List Char).getLast? = some d → ¬(d = '.' ∨ d = ')') := by
      intro d hd
      simp only [List.getLast?_singleton, Option.some.injEq] at hd
      subst hd
      exact hne
    simp only [List.mem_cons, List.not_mem_nil, or_false] at hsuf
    rcases hsuf with rfl | rfl | rfl
    · exact is_level1_of_strip _ c hc
        (by rw [toList_append]; simpa using stripSeq_no_sep [c] hlast)
    · exact is_level1_of_strip _ c hc
        (by rw [toList_append]; exact stripSeq_append_sep [c] '.' (Or.inl rfl))
    · exact is_level1_of_strip _ c hc
        (by rw [toList_append]; exact stripSeq_append_sep [c] ')' (Or.inr rfl))
  · intro s hs suf hsuf
    have hlast : ∀ d, s.toList.getLast? = some d → ¬(d = '.' ∨ d = ')') := by
      intro d hd hdot
      have h2 := romanLast _ hs
      have h3 : (pyUpper s).toList.getLast? = some (Char.toUpper d) := by
        show ((s.toList.map Char.toUpper).asString).toList.getLast? = _
        rw [show ((s.toList.map Char.toUpper).asString).toList = s.toList.map Char.toUpper from rfl]
        rw [List.getLast?_map, hd]
        rfl
      rw [h3] at h2
      rcases hdot with rfl | rfl <;>
        rcases h2 with h | h | h <;> exact absurd h (by decide)
    simp only [List.mem_cons, List.not_mem_nil, or_false] at hsuf
    rcases hsuf with rfl | rfl | rfl
    · have hstr : stripSeqSuffixL (s ++ "").toList = s.toList := by
        rw [toList_append]
        simpa using stripSeq_no_sep s.toList hlast
      have := is_level2_of_strip (s ++ "") hstr (by rw [show (s.toList.map Char.toUpper).asString = pyUpper s from rfl]; exact hs)
      simpa using this
    · have hstr : stripSeqSuffixL (s ++ ".").toList = s.toList := by
        rw [toList_append]
        exact stripSeq_append_sep s.toList '.' (Or.inl rfl)
      exact is_level2_of_strip (s ++ ".") hstr hs
    · have hstr : stripSeqSuffixL (s ++ ")").toList = s.toList := by
        rw [toList_append]
        exact stripSeq_append_sep s.toList ')' (Or.inr rfl)
      exact is_level2_of_strip (s ++ ")") hstr hs
  · intro s hs suf hsuf
    have hdig : ∀ d, s.toList.getLast? = some d → ¬(d = '.' ∨ d = ')') := by
      intro d hd hdot
      have hall := hs
      unfold pyIsdigit at hall
      simp only [Bool.and_eq_true, decide_eq_true_eq, List.all_eq_true] at hall
      have hmem : d ∈ s.toList := by
        have := List.mem_getLast?_eq_getLast (l := s.toList) (x := d) (by rw [hd]; rfl)
        rcases this with ⟨hne2, rfl⟩
        exact List.getLast_mem hne2
      have := hall.2 d hmem
      rcases hdot with rfl | rfl <;> simp at this
    simp only [List.mem_cons, List.not_mem_nil, or_false] at hsuf
    rcases hsuf with rfl | rfl | rfl
    · have : (s ++ "") = s := by
        apply String.ext
        rw [String.data_append]
        simp [String.data]
      rw [this]
      exact is_level3_digits s hs
    · have hnd : pyIsdigit (s ++ ".") = false := by
        unfold pyIsdigit
        rw [toList_append]
        simp
      unfold is_level3
      rw [hnd]
      have hstr : stripSeqSuffixL (s ++ ".").toList = s.toList := by
        rw [toList_append]
        exact stripSeq_append_sep s.toList '.' (Or.inl rfl)
      rw [hstr, asString_toList, if_pos hs]
      simp
    · have hnd : pyIsdigit (s ++ ")") = false := by
        unfold pyIsdigit
        rw [toList_append]
        simp
      unfold is_level3
      rw [hnd]
      have hstr : stripSeqSuffixL (s ++ ")").toList = s.toList := by
        rw [toList_append]
        exact stripSeq_append_sep s.toList ')' (Or.inr rfl)
      rw [hstr, asString_toList, if_pos hs]
      simp

/-- Witness for C1 at concrete inputs. -/
theorem classifier_per_level_spec_witness :
    is_level1 "B." = (true, some "B") ∧
    is_level2 "xx)" = (true, some "XX") ∧
    is_level3 "12." = (true, some "12") := by
  refine ⟨?_, ?_, ?_⟩
  · exact classifier_per_level_spec.1 'B' (by decide) "." (by decide)
  · exact classifier_per_level_spec.2.1 "xx" (by decide) ")" (by decide)
  · exact classifier_per_level_spec.2.2 "12" (by decide) "." (by decide)

/-- **C5**: a sequence cell holding the number `1.0` and one holding the text
`"1"` classify identically — `_normalize_stt` collapses the integral float to
`"1"`, both reach `_is_level3`, and the whole-pipeline classification is
`Level3 "1"`; likewise `parse_stt_value` of the flat pipeline parses `"1.0"`
and `"1"` to the same clean integer string `"1"` and integer `1`. -/
theorem numeric_one_classifies_as_text_one :
    normalize_stt (.num 1) = "1" ∧
    normalize_stt (.str "1") = "1" ∧
    classify_stt (normalize_stt (.num 1)) = .level3 "1" ∧
    classify_stt (normalize_stt (.str "1")) = .level3 "1" ∧
    parse_stt_value "1.0" = (true, some "1", some 1) ∧
    parse_stt_value "1" = (true, some "1", some 1) := by
  refine ⟨by decide, by decide, by decide, by decide, by rfl, by rfl⟩

/-- Behaviour of the level-3 opening step on an arbitrary post-flush state. -/
theorem openL3_props (t : BState) (uc : UseCase) :
    (openL3 t uc).curUsecase = some uc ∧
    (openL3 t uc).curModule.isSome = true ∧
    (openL3 t uc).curGroup.isSome = true ∧
    (t.curModule = none → (openL3 t uc).curModule = some defaultModule) ∧
    (t.curGroup = none →
        (openL3 t uc).curGroup = some { code := none, name := "", usecases := [] } ∧
        (openL3 t uc).curAttached = true) ∧
    (∃ g, (flushUsecase (openL3 t uc)).curGroup = some g ∧ uc ∈ g.usecases) := by
  obtain ⟨ms, cm, cg, ca, cu⟩ := t
  cases cm <;> cases cg <;>
    simp [openL3, flushUsecase, defaultModule]

/-- **C2**: when a row classifies Level3 (directly or via name-token
recovery), the builder flushes only the open use-case; if no module is open
it synthesizes the default module (code `"A"`, placeholder name); if no group
is open it synthesizes an anonymous group attached (`curAttached = true`) to
the current module; it opens a new current use-case carrying the row's code,
name, actor, business measure and complexity, with the row's transaction text
as first transaction line exactly when that text is non-empty — and flushing
that use-case lands it in the open group, so it is never dropped for lack of
an enclosing module or group. -/
theorem level3_row_synthesizes_parents (s : BState) (r : Row) (c nm : String)
    (h : classifyRow r = .l3 c nm) :
    (processRow s r).curUsecase =
        some { code := c, name := nm, actor := r.actor, bmt := r.bmt,
               complexity := r.complexity,
               transactions := if r.trans = "" then [] else [r.trans] } ∧
    (processRow s r).curModule.isSome = true ∧
    (processRow s r).curGroup.isSome = true ∧
    ((flushUsecase s).curModule = none →
        (processRow s r).curModule = some defaultModule) ∧
    ((flushUsecase s).curGroup = none →
        (processRow s r).curGroup = some { code := none, name := "", usecases := [] } ∧
        (processRow s r).curAttached = true) ∧
    (∃ g, (flushUsecase (processRow s r)).curGroup = some g ∧
        ({ code := c, name := nm, actor := r.actor, bmt := r.bmt,
           complexity := r.complexity,
           transactions := if r.trans = "" then [] else [r.trans] } : UseCase) ∈ g.usecases) := by
  have hpr : processRow s r =
      openL3 (flushUsecase s)
        { code := c, name := nm, actor := r.actor, bmt := r.bmt,
          complexity := r.complexity,
          transactions := if r.trans = "" then [] else [r.trans] } := by
    unfold processRow
    rw [h]
  rw [hpr]
  exact openL3_props (flushUsecase s) _

/-- Witness for C2 at a concrete state and row. -/
theorem level3_row_synthesizes_parents_witness :
    (processRow initBState ⟨"1", "Login", "U", "T1", "b", "c"⟩).curUsecase =
        some { code := "1", name := "Login", actor := "U", bmt := "b",
               complexity := "c", transactions := ["T1"] } ∧
    (processRow initBState ⟨"1", "Login", "U", "T1", "b", "c"⟩).curModule = some defaultModule := by
  have h := level3_row_synthesizes_parents initBState ⟨"1", "Login", "U", "T1", "b", "c"⟩
      "1" "Login" (by rfl)
  exact ⟨by simpa using h.1, h.2.2.2.1 (by rfl)⟩


/-! ## The no-empty-transaction invariant (C9) -/

/-- A use-case's transaction list holds no empty string. -/
def ucClean (u : UseCase) : Prop :=
  ∀ t ∈ u.transactions, t ≠ ""

/-- All use-cases of a group are clean. -/
def grpClean (g : HGroup) : Prop :=
  ∀ u ∈ g.usecases, ucClean u

/-- All groups of a module are clean. -/
def modClean (m : HModule) : Prop :=
  ∀ g ∈ m.groups, grpClean g

/-- The invariant over the whole builder state. -/
def stClean (s : BState) : Prop :=
  (∀ m ∈ s.modules, modClean m) ∧
  (∀ m, s.curModule = some m → modClean m) ∧
  (∀ g, s.curGroup = some g → grpClean g) ∧
  (∀ u, s.curUsecase = some u → ucClean u)

theorem stClean_flushUsecase {s : BState} (h : stClean s) : stClean (flushUsecase s) := by
  obtain ⟨ms, cm, cg, ca, cu⟩ := s
  obtain ⟨h1, h2, h3, h4⟩ := h
  cases cu with
  | none => exact ⟨h1, h2, h3, h4⟩
  | some uc =>
    have huc : ucClean uc := h4 uc rfl
    cases cg with
    | none =>
      have hfl : flushUsecase ⟨ms, cm, none, ca, some uc⟩ =
          ⟨ms, cm, some ⟨none, "", [uc]⟩, cm.isSome, none⟩ := rfl
      rw [hfl]
      refine ⟨h1, h2, ?_, ?_⟩
      · intro g hg
        obtain rfl : (⟨none, "", [uc]⟩ : HGroup) = g := by simpa using hg
        intro u hu
        rw [List.mem_singleton] at hu
        subst hu
        exact huc
      · intro u hu
        simp at hu
    | some g0 =>
      have hg0 : grpClean g0 := h3 g0 rfl
      have hfl : flushUsecase ⟨ms, cm, some g0, ca, some uc⟩ =
          ⟨ms, cm, some ⟨g0.code, g0.name, g0.usecases ++ [uc]⟩, ca, none⟩ := rfl
      rw [hfl]
      refine ⟨h1, h2, ?_, ?_⟩
      · intro g hg
        obtain rfl : (⟨g0.code, g0.name, g0.usecases ++ [uc]⟩ : HGroup) = g := by simpa using hg
        intro u hu
        rw [List.mem_append, List.mem_singleton] at hu
        rcases hu with hu | rfl
        · exact hg0 u hu
        · exact huc
      · intro u hu
        simp at hu

theorem stClean_flushGroup {s : BState} (h : stClean s) : stClean (flushGroup s) := by
  obtain ⟨ms, cm, cg, ca, cu⟩ := s
  obtain ⟨h1, h2, h3, h4⟩ := h
  cases cg with
  | none => exact ⟨h1, h2, h3, h4⟩
  | some g =>
    have hg : grpClean g := h3 g rfl
    cases cm with
    | none =>
      have hfl : flushGroup ⟨ms, none, some g, ca, cu⟩ = ⟨ms, none, none, ca, cu⟩ := rfl
      rw [hfl]
      exact ⟨h1, h2, by simp, h4⟩
    | some m =>
      have hm : modClean m := h2 m rfl
      have hm' : modClean ⟨m.code, m.name, m.groups ++ [g]⟩ := by
        intro g' hg'
        rw [List.mem_append, List.mem_singleton] at hg'
        rcases hg' with hg' | rfl
        · exact hm g' hg'
        · exact hg
      cases ca with
      | true =>
        have hfl : flushGroup ⟨ms, some m, some g, true, cu⟩ =
            ⟨ms, some ⟨m.code, m.name, m.groups ++ [g]⟩, none, true, cu⟩ := rfl
        rw [hfl]
        refine ⟨h1, ?_, by simp, h4⟩
        intro m' hm2
        obtain rfl : (⟨m.code, m.name, m.groups ++ [g]⟩ : HModule) = m' := by simpa using hm2
        exact hm'
      | false =>
        by_cases hmem : g ∈ m.groups
        · have hfl : flushGroup ⟨ms, some m, some g, false, cu⟩ =
              ⟨ms, some m, none, false, cu⟩ := by
            simp [flushGroup, hmem]
          rw [hfl]
          refine ⟨h1, ?_, by simp, h4⟩
          intro m' hm2
          obtain rfl : m = m' := by simpa using hm2
          exact hm
        · have hfl : flushGroup ⟨ms, some m, some g, false, cu⟩ =
              ⟨ms, some ⟨m.code, m.name, m.groups ++ [g]⟩, none, false, cu⟩ := by
            simp [flushGroup, hmem]
          rw [hfl]
          refine ⟨h1, ?_, by simp, h4⟩
          intro m' hm2
          obtain rfl : (⟨m.code, m.name, m.groups ++ [g]⟩ : HModule) = m' := by simpa using hm2
          exact hm'

theorem stClean_flushModule {s : BState} (h : stClean s) : stClean (flushModule s) := by
  obtain ⟨ms, cm, cg, ca, cu⟩ := s
  obtain ⟨h1, h2, h3, h4⟩ := h
  cases cm with
  | none => exact ⟨h1, h2, h3, h4⟩
  | some m =>
    have hm : modClean m := h2 m rfl
    by_cases hmem : m ∈ ms
    · have hfl : flushModule ⟨ms, some m, cg, ca, cu⟩ = ⟨ms, none, cg, ca, cu⟩ := by
        simp [flushModule, hmem]
      rw [hfl]
      exact ⟨h1, by simp, h3, h4⟩
    · have hfl : flushModule ⟨ms, some m, cg, ca, cu⟩ = ⟨ms ++ [m], none, cg, ca, cu⟩ := by
        simp [flushModule, hmem]
      rw [hfl]
      refine ⟨?_, by simp, h3, h4⟩
      intro m' hm'
      rw [List.mem_append, List.mem_singleton] at hm'
      rcases hm' with hm' | rfl
      · exact h1 m' hm'
      · exact hm

theorem stClean_openL3 {t : BState} (h : stClean t) (uc : UseCase) (huc : ucClean uc) :
    stClean (openL3 t uc) := by
  obtain ⟨ms, cm, cg, ca, cu⟩ := t
  obtain ⟨h1, h2, h3, h4⟩ := h
  cases cm with
  | none =>
    cases cg with
    | none =>
      have hfl : openL3 ⟨ms, none, none, ca, cu⟩ uc =
          ⟨ms, some defaultModule, some ⟨none, "", []⟩, true, some uc⟩ := rfl
      rw [hfl]
      refine ⟨h1, ?_, ?_, ?_⟩
      · intro m hm
        obtain rfl : defaultModule = m := by simpa using hm
        intro g hg
        simp [defaultModule] at hg
      · intro g hg
        obtain rfl : (⟨none, "", []⟩ : HGroup) = g := by simpa using hg
        intro u hu
        simp at hu
      · intro u hu
        obtain rfl : uc = u := by simpa using hu
        exact huc
    | some g0 =>
      have hfl : openL3 ⟨ms, none, some g0, ca, cu⟩ uc =
          ⟨ms, some defaultModule, some g0, ca, some uc⟩ := rfl
      rw [hfl]
      refine ⟨h1, ?_, ?_, ?_⟩
      · intro m hm
        obtain rfl : defaultModule = m := by simpa using hm
        intro g hg
        simp [defaultModule] at hg
      · intro g hg
        obtain rfl : g0 = g := by simpa using hg
        exact h3 g0 rfl
      · intro u hu
        obtain rfl : uc = u := by simpa using hu
        exact huc
  | some m0 =>
    cases cg with
    | none =>
      have hfl : openL3 ⟨ms, some m0, none, ca, cu⟩ uc =
          ⟨ms, some m0, some ⟨none, "", []⟩, true, some uc⟩ := rfl
      rw [hfl]
      refine ⟨h1, ?_, ?_, ?_⟩
      · intro m hm
        obtain rfl : m0 = m := by simpa using hm
        exact h2 m0 rfl
      · intro g hg
        obtain rfl : (⟨none, "", []⟩ : HGroup) = g := by simpa using hg
        intro u hu
        simp at hu
      · intro u hu
        obtain rfl : uc = u := by simpa using hu
        exact huc
    | some g0 =>
      have hfl : openL3 ⟨ms, some m0, some g0, ca, cu⟩ uc =
          ⟨ms, some m0, some g0, ca, some uc⟩ := rfl
      rw [hfl]
      refine ⟨h1, ?_, ?_, ?_⟩
      · intro m hm
        obtain rfl : m0 = m := by simpa using hm
        exact h2 m0 rfl
      · intro g hg
        obtain rfl : g0 = g := by simpa using hg
        exact h3 g0 rfl
      · intro u hu
        obtain rfl : uc = u := by simpa using hu
        exact huc

theorem stClean_processRow {s : BState} (h : stClean s) (r : Row) :
    stClean (processRow s r) := by
  cases hcr : classifyRow r with
  | skip =>
    have hpr : processRow s r = s := by
      unfold processRow
      rw [hcr]
    rw [hpr]
    exact h
  | l1 c =>
    have hpr : processRow s r =
        { flushModule (flushGroup (flushUsecase s)) with
          curModule := some ⟨c, r.name, []⟩ } := by
      unfold processRow
      rw [hcr]
    rw [hpr]
    have ht := stClean_flushModule (stClean_flushGroup (stClean_flushUsecase h))
    revert ht
    generalize flushModule (flushGroup (flushUsecase s)) = t
    intro ht
    obtain ⟨ms, cm, cg, ca, cu⟩ := t
    obtain ⟨h1, h2, h3, h4⟩ := ht
    refine ⟨h1, ?_, h3, h4⟩
    intro m hm
    obtain rfl : (⟨c, r.name, []⟩ : HModule) = m := by simpa using hm
    intro g hg
    simp at hg
  | l2 c =>
    have hpr : processRow s r =
        (let s1 := flushGroup (flushUsecase s)
         let s2 := if s1.curModule.isNone then { s1 with curModule := some defaultModule } else s1
         { s2 with curGroup := some ⟨some c, r.name, []⟩, curAttached := false }) := by
      unfold processRow
      rw [hcr]
    rw [hpr]
    have ht := stClean_flushGroup (stClean_flushUsecase h)
    revert ht
    generalize flushGroup (flushUsecase s) = t
    intro ht
    obtain ⟨ms, cm, cg, ca, cu⟩ := t
    obtain ⟨h1, h2, h3, h4⟩ := ht
    cases cm with
    | none =>
      refine ⟨h1, ?_, ?_, h4⟩
      · intro m hm
        obtain rfl : defaultModule = m := by simpa using hm
        intro g hg
        simp [defaultModule] at hg
      · intro g hg
        obtain rfl : (⟨some c, r.name, []⟩ : HGroup) = g := by simpa using hg
        intro u hu
        simp at hu
    | some m0 =>
      refine ⟨h1, ?_, ?_, h4⟩
      · intro m hm
        obtain rfl : m0 = m := by simpa using hm
        exact h2 m0 rfl
      · intro g hg
        obtain rfl : (⟨some c, r.name, []⟩ : HGroup) = g := by simpa using hg
        intro u hu
        simp at hu
  | l3 c nm =>
    have hpr : processRow s r =
        openL3 (flushUsecase s)
          ⟨c, nm, r.actor, r.bmt, r.complexity,
           if r.trans = "" then [] else [r.trans]⟩ := by
      unfold processRow
      rw [hcr]
    rw [hpr]
    refine stClean_openL3 (stClean_flushUsecase h) _ ?_
    intro t ht
    by_cases htr : r.trans = ""
    · simp [htr] at ht
    · simp only [htr, if_false, List.mem_singleton, reduceIte] at ht
      subst ht
      exact htr
  | cont =>
    have hpr : processRow s r =
        (if r.trans ≠ "" ∧ s.curUsecase.isSome then
          match s.curUsecase with
          | some uc => { s with curUsecase := some { uc with transactions := uc.transactions ++ [r.trans] } }
          | none => s
         else s) := by
      unfold processRow
      rw [hcr]
    rw [hpr]
    by_cases hc : r.trans ≠ "" ∧ s.curUsecase.isSome
    · rw [if_pos hc]
      cases hcu : s.curUsecase with
      | none => exact h
      | some uc =>
        obtain ⟨h1, h2, h3, h4⟩ := h
        refine ⟨h1, h2, h3, ?_⟩
        intro u hu
        obtain rfl : ({ uc with transactions := uc.transactions ++ [r.trans] } : UseCase) = u := by
          simpa using hu
        intro t ht
        rw [List.mem_append, List.mem_singleton] at ht
        rcases ht with ht | rfl
        · exact h4 uc hcu t ht
        · exact hc.1
    · rw [if_neg hc]
      exact h

theorem stClean_foldl (rows : List Row) {s : BState} (h : stClean s) :
    stClean (rows.foldl processRow s) := by
  induction rows generalizing s with
  | nil => exact h
  | cons r rs ih => exact ih (stClean_processRow h r)

/-- **C9**: every use-case in the tree built by `read_excel` has a
transaction list free of empty strings — a transaction line is appended (on
the opening Level-3 row or a continuation row) only when the row's
transaction text is non-empty. -/
theorem transactions_never_empty (rows : List Row) :
    ∀ m ∈ readExcelRows rows, ∀ g ∈ m.groups, ∀ u ∈ g.usecases,
      ∀ t ∈ u.transactions, t ≠ "" := by
  have hinit : stClean initBState := by
    refine ⟨?_, ?_, ?_, ?_⟩ <;> intro x hx <;> simp [initBState] at hx
  have hfold := stClean_foldl rows hinit
  have hfin := stClean_flushModule (stClean_flushGroup (stClean_flushUsecase hfold))
  intro m hm g hg u hu t ht
  exact hfin.1 m hm g hg u hu t ht

/-- Witness for C9 on a concrete row stream. -/
theorem transactions_never_empty_witness : ("Step1" : String) ≠ "" := by
  have h := transactions_never_empty
    [⟨"A", "Auth Module", "", "", "", ""⟩, ⟨"1", "Login", "User", "Step1", "", ""⟩]
    { code := "A", name := "Auth Module",
      groups := [{ code := none, name := "",
                   usecases := [{ code := "1", name := "Login", actor := "User",
                                  bmt := "", complexity := "",
                                  transactions := ["Step1"] }] }] }
    (List.mem_singleton.mpr rfl)
    { code := none, name := "",
      usecases := [{ code := "1", name := "Login", actor := "User",
                     bmt := "", complexity := "", transactions := ["Step1"] }] }
    (List.mem_singleton.mpr rfl)
    { code := "1", name := "Login", actor := "User", bmt := "", complexity := "",
      transactions := ["Step1"] }
    (List.mem_singleton.mpr rfl)
    "Step1" (List.mem_singleton.mpr rfl)
  exact h

/-- **C7**: in the consolidated table, each use-case emits exactly one row
per transaction line — the first row carrying code/name/actor/BMT/complexity
with the first transaction in the transaction column, every later row blank
except for its transaction — and a use-case with no transaction lines still
emits exactly one row with an empty transaction cell. -/
theorem renderer_one_row_per_transaction (uc : UseCase) :
    (uc.transactions = [] →
        renderUsecase uc = [[uc.code, uc.name, uc.actor, "", uc.bmt, uc.complexity]]) ∧
    (uc.transactions ≠ [] →
        (renderUsecase uc).length = uc.transactions.length ∧
        ∀ i, i < uc.transactions.length →
          (renderUsecase uc).getD i [] =
            if i = 0 then
              [uc.code, uc.name, uc.actor, uc.transactions.getD 0 "", uc.bmt, uc.complexity]
            else
              ["", "", "", uc.transactions.getD i "", "", ""]) := by
  constructor
  · intro h
    simp [renderUsecase, h, List.range_succ]
  · intro h
    constructor
    · simp [renderUsecase, h]
    · intro i hi
      have hlen : (if uc.transactions = [] then [""] else uc.transactions) = uc.transactions := by
        rw [if_neg h]
      unfold renderUsecase
      rw [hlen]
      rw [List.getD_eq_getElem?_getD, List.getElem?_map, List.getElem?_range hi]
      by_cases hz : i = 0 <;> simp [hz]

/-- Witness for C7 at a concrete use-case. -/
theorem renderer_one_row_per_transaction_witness :
    ((renderUsecase { code := "1", name := "N", actor := "A", bmt := "b",
                      complexity := "c", transactions := ["t1", "t2"] }).length = 2) ∧
    ((renderUsecase { code := "1", name := "N", actor := "A", bmt := "b",
                      complexity := "c", transactions := ["t1", "t2"] }).getD 1 [] =
      ["", "", "", "t2", "", ""]) := by
  have h := (renderer_one_row_per_transaction
    { code := "1", name := "N", actor := "A", bmt := "b", complexity := "c",
      transactions := ["t1", "t2"] }).2 (by simp)
  exact ⟨h.1, by simpa using h.2 1 (by simp)⟩

theorem first_non_empty_find (vs : List String) :
    first_non_empty vs = ((vs.find? fun v => pyStrip v ≠ "").getD "") := by
  induction vs with
  | nil => rfl
  | cons v vs ih =>
    by_cases hv : pyStrip v = "" <;>
      simp [first_non_empty, List.find?_cons, hv, ih]

theorem filterMap_strip_eq (ls : List String) :
    (ls.filterMap fun l => if pyStrip l = "" then none else some (pyStrip l)) =
      (ls.map pyStrip).filter (· ≠ "") := by
  induction ls with
  | nil => rfl
  | cons l ls ih =>
    by_cases hl : pyStrip l = "" <;>
      simp [List.filterMap_cons, List.filter_cons, hl, ih]

theorem joinAux_append (vs : List String) :
    ∀ acc, joinNonEmptyAux vs acc = acc ++ vs.flatMap cellLines := by
  induction vs with
  | nil =>
    intro acc
    simp [joinNonEmptyAux]
  | cons v vs ih =>
    intro acc
    rw [joinNonEmptyAux, ih, List.flatMap_cons, List.append_assoc]

theorem flatMap_cellLines_eq_specLines (vs : List String) :
    (vs.filter fun v => pyStrip v ≠ "").flatMap cellLines = specLines vs := by
  unfold specLines
  induction vs with
  | nil => rfl
  | cons v vs ih =>
    by_cases hv : pyStrip v = ""
    · simp only [List.filter_cons, hv]
      simpa using ih
    · have hcond : decide (pyStrip v ≠ "") = true := by simp [hv]
      simp only [List.filter_cons, hcond, if_true, List.flatMap_cons]
      rw [show cellLines v = ((pySplitlines v).map pyStrip).filter (· ≠ "") from by
            rw [cellLines, if_neg hv, filterMap_strip_eq]]
      rw [ih]

/-- The `app.py` side of the aggregation claim: within one group, each
scalar output field is the first value in row order whose strip is
non-empty, and the transaction output is the newline-join of the non-empty
stripped lines of the non-empty transaction cells — every joined line being
non-empty. -/
theorem aggregation_scalars_and_lines (nm : String) (g : List FlatRow) :
    (aggregateGroup nm g).actor = ((g.map (·.actor)).find? fun v => pyStrip v ≠ "").getD "" ∧
    (aggregateGroup nm g).bmt = ((g.map (·.bmt)).find? fun v => pyStrip v ≠ "").getD "" ∧
    (aggregateGroup nm g).complexity =
        ((g.map (·.complexity)).find? fun v => pyStrip v ≠ "").getD "" ∧
    (aggregateGroup nm g).trans = String.intercalate "\n" (specLines (g.map (·.trans))) ∧
    (∀ l ∈ specLines (g.map (·.trans)), l ≠ "") := by
  refine ⟨first_non_empty_find _, first_non_empty_find _, first_non_empty_find _, ?_, ?_⟩
  · show join_non_empty _ = _
    rw [join_non_empty, joinAux_append, List.nil_append, flatMap_cellLines_eq_specLines]
  · intro l hl
    unfold specLines at hl
    rw [List.mem_flatMap] at hl
    obtain ⟨v, _, hl2⟩ := hl
    exact of_decide_eq_true (List.mem_filter.1 hl2).2

/-- The `app.py`-side lemma evaluated on a concrete group (spec scenario A
plus a multi-line cell). -/
theorem aggregation_scalars_and_lines_witness :
    (aggregateGroup "Login"
        [⟨"1", "Login", "", "", "", "Enter creds"⟩,
         ⟨"", "Login", "User", "", "", " Click submit \nDone "⟩]).actor = "User" ∧
    (aggregateGroup "Login"
        [⟨"1", "Login", "", "", "", "Enter creds"⟩,
         ⟨"", "Login", "User", "", "", " Click submit \nDone "⟩]).trans =
      "Enter creds\nClick submit\nDone" := by
  have h := aggregation_scalars_and_lines "Login"
    [⟨"1", "Login", "", "", "", "Enter creds"⟩,
     ⟨"", "Login", "User", "", "", " Click submit \nDone "⟩]
  refine ⟨?_, ?_⟩
  · rw [h.1]
    rfl
  · rw [h.2.2.2.1]
    rfl

/-! ## Header-locator characterizations (C4) -/

theorem tblAux_none : ∀ (l : List (List String)) (i : Nat),
    (∀ r ∈ l, rowBothT r = false) → findHeaderRowTblAux l i = 0 := by
  intro l
  induction l with
  | nil => intro i _; rfl
  | cons r rs ih =>
    intro i h
    rw [findHeaderRowTblAux, h r (List.mem_cons_self r rs)]
    exact ih (i + 1) fun x hx => h x (List.mem_cons_of_mem r hx)

theorem tblAux_found : ∀ (pre : List (List String)) (r : List String)
    (post : List (List String)) (i : Nat),
    (∀ x ∈ pre, rowBothT x = false) → rowBothT r = true →
    findHeaderRowTblAux (pre ++ r :: post) i = i + pre.length := by
  intro pre
  induction pre with
  | nil =>
    intro r post i _ hr
    rw [List.nil_append, findHeaderRowTblAux, hr]
    rfl
  | cons x pre ih =>
    intro r post i hpre hr
    rw [List.cons_append, findHeaderRowTblAux, hpre x (List.mem_cons_self x pre),
        if_neg Bool.false_ne_true]
    rw [ih r post (i + 1) (fun y hy => hpre y (List.mem_cons_of_mem x hy)) hr]
    simp only [List.length_cons]
    omega

theorem appAux_none : ∀ (l : List (List String)) (i : Nat),
    (∀ r ∈ l, rowHasNameA r = false) →
    findHeaderRowAppAux l i = .error "Header row not found: missing \"Tên Use-case\"" := by
  intro l
  induction l with
  | nil => intro i _; rfl
  | cons r rs ih =>
    intro i h
    rw [findHeaderRowAppAux, h r (List.mem_cons_self r rs)]
    exact ih (i + 1) fun x hx => h x (List.mem_cons_of_mem r hx)

theorem appAux_found : ∀ (pre : List (List String)) (r : List String)
    (post : List (List String)) (i : Nat),
    (∀ x ∈ pre, rowHasNameA x = false) → rowHasNameA r = true →
    findHeaderRowAppAux (pre ++ r :: post) i = .ok (i + pre.length) := by
  intro pre
  induction pre with
  | nil =>
    intro r post i _ hr
    rw [List.nil_append, findHeaderRowAppAux, hr]
    rfl
  | cons x pre ih =>
    intro r post i hpre hr
    rw [List.cons_append, findHeaderRowAppAux, hpre x (List.mem_cons_self x pre),
        if_neg Bool.false_ne_true]
    rw [ih r post (i + 1) (fun y hy => hpre y (List.mem_cons_of_mem x hy)) hr]
    simp only [List.length_cons]
    congr 1
    omega

theorem bAux_none : ∀ (l : List (List String)) (i : Nat),
    (∀ r ∈ l, rowHasNameB r = false) → findHeaderRowBAux l i = 0 := by
  intro l
  induction l with
  | nil => intro i _; rfl
  | cons r rs ih =>
    intro i h
    rw [findHeaderRowBAux, h r (List.mem_cons_self r rs)]
    exact ih (i + 1) fun x hx => h x (List.mem_cons_of_mem r hx)

theorem bAux_found : ∀ (pre : List (List String)) (r : List String)
    (post : List (List String)) (i : Nat),
    (∀ x ∈ pre, rowHasNameB x = false) → rowHasNameB r = true →
    findHeaderRowBAux (pre ++ r :: post) i = i + pre.length := by
  intro pre
  induction pre with
  | nil =>
    intro r post i _ hr
    rw [List.nil_append, findHeaderRowBAux, hr]
    rfl
  | cons x pre ih =>
    intro r post i hpre hr
    rw [List.cons_append, findHeaderRowBAux, hpre x (List.mem_cons_self x pre),
        if_neg Bool.false_ne_true]
    rw [ih r post (i + 1) (fun y hy => hpre y (List.mem_cons_of_mem x hy)) hr]
    simp only [List.length_cons]
    omega

/-- **C4, counterexample**: the claim says every header locator requires a
row containing *both* a sequence-label token and a name-label token and
otherwise errors or falls back to row 0.  On the row stream
`[["x"], ["ten use-case"]]` no row contains a sequence-label token, yet both
flat-variant locators return index 1 — neither a failure nor the fallback 0. -/
theorem header_locator_counterexample :
    find_header_row_app [["x"], ["ten use-case"]] = .ok 1 ∧
    find_header_row_b [["x"], ["ten use-case"]] = 1 ∧
    rowHasSttT ["x"] = false ∧
    rowHasSttT ["ten use-case"] = false ∧
    (1 : Nat) ≠ 0 := by
  exact ⟨rfl, rfl, rfl, rfl, by decide⟩

/-- **C4, amended**: only the hierarchical variant's locator demands both a
sequence-label cell (`stt`/`s`/`tt` exactly, after strip and lower-case) and
a name-label cell (containing a `use-case` synonym), scanning the first 30
rows and falling back to row 0; the two flat variants' locators look only
for a name-label cell (`ten use-case`/`ten usecase` after normalization),
`app.py`'s failing with a header-not-found error when absent and
`excel_to_docx.py`'s falling back to row 0.  Each returns the index of the
first matching row. -/
theorem header_locator_amended :
    (∀ rows : List (List String), (∀ r ∈ rows.take 30, rowBothT r = false) →
        find_header_row_tbl rows = 0) ∧
    (∀ (pre : List (List String)) (r : List String) (post rows : List (List String)),
        rows.take 30 = pre ++ r :: post → (∀ x ∈ pre, rowBothT x = false) →
        rowBothT r = true → find_header_row_tbl rows = pre.length) ∧
    (∀ rows : List (List String), (∀ r ∈ rows, rowHasNameA r = false) →
        find_header_row_app rows = .error "Header row not found: missing \"Tên Use-case\"") ∧
    (∀ (pre : List (List String)) (r : List String) (post : List (List String)),
        (∀ x ∈ pre, rowHasNameA x = false) → rowHasNameA r = true →
        find_header_row_app (pre ++ r :: post) = .ok pre.length) ∧
    (∀ rows : List (List String), (∀ r ∈ rows, rowHasNameB r = false) →
        find_header_row_b rows = 0) ∧
    (∀ (pre : List (List String)) (r : List String) (post : List (List String)),
        (∀ x ∈ pre, rowHasNameB x = false) → rowHasNameB r = true →
        find_header_row_b (pre ++ r :: post) = pre.length) := by
  refine ⟨?_, ?_, ?_, ?_, ?_, ?_⟩
  · intro rows h
    exact tblAux_none (rows.take 30) 0 h
  · intro pre r post rows htake hpre hr
    rw [find_header_row_tbl, htake, tblAux_found pre r post 0 hpre hr, Nat.zero_add]
  · intro rows h
    exact appAux_none rows 0 h
  · intro pre r post hpre hr
    rw [find_header_row_app, appAux_found pre r post 0 hpre hr, Nat.zero_add]
  · intro rows h
    exact bAux_none rows 0 h
  · intro pre r post hpre hr
    rw [find_header_row_b, bAux_found pre r post 0 hpre hr, Nat.zero_add]

/-- Witness for the amended C4 at concrete row streams. -/
theorem header_locator_amended_witness :
    find_header_row_tbl [["x"], ["stt", "use-case"]] = 1 ∧
    find_header_row_app [["x"]] = .error "Header row not found: missing \"Tên Use-case\"" := by
  constructor
  · exact header_locator_amended.2.1 [["x"]] ["stt", "use-case"] [] [["x"], ["stt", "use-case"]]
      rfl (by decide) (by rfl)
  · exact header_locator_amended.2.2.1 [["x"]] (by decide)

/-! ## Column-resolver behaviour (C6) -/

/-- A frame whose six columns carry the canonical labels but whose `BMT`
column is entirely NaN: five non-empty columns, yet label resolution
succeeds. -/
def dfLabelled : DFrame :=
  { cols := ["STT", "Tên Use-case", "Tác nhân", "Giao dịch", "BMT", "Độ phức tạp"],
    rows := [[some "1", some "Login", some "User", some "x", none, some "Low"]] }

/-- **C6, counterexample**: the claim says every input with fewer than six
non-empty columns fails with a structural error; `dfLabelled` has five
non-empty columns (its `BMT` column is all-NaN) yet `map_columns` resolves
it successfully, because all six required labels match and the transaction
column is non-empty, so the positional pass (the only failing pass) never
runs. -/
theorem map_columns_counterexample :
    countNonNaCols dfLabelled = 5 ∧ (5 : Nat) < 6 ∧
    map_columns dfLabelled = .ok dfLabelled := by
  refine ⟨rfl, by decide, rfl⟩

/-- **C6, amended**: when the matched transaction column is entirely empty
(and no required label is missing), the resolver falls back to positional
mapping; the under-six structural error is raised exactly on the positional
path — when required labels are missing or the transaction column is empty
AND fewer than six non-NaN columns remain — and a successful positional
mapping assigns the six canonical fields by column order. -/
theorem map_columns_amended :
    (∀ df : DFrame,
        (requiredCols.filter fun c => ¬ (renameDF df).cols.contains c) = [] →
        giaoDichEmpty (renameDF df) = true →
        map_columns df = applyPositional (renameDF df)) ∧
    (∀ df : DFrame,
        ((requiredCols.filter fun c => ¬ (renameDF df).cols.contains c) ≠ [] ∨
          giaoDichEmpty (renameDF df) = true) →
        countNonNaCols (renameDF df) < 6 →
        map_columns df = .error "Not enough columns to map by position.") ∧
    (∀ df t : DFrame, applyPositional df = .ok t → t.cols.take 6 = requiredCols) := by
  refine ⟨?_, ?_, ?_⟩
  · intro df hmiss hempty
    unfold map_columns
    rw [if_neg (fun hne => hne hmiss)]
    have hcont : (renameDF df).cols.contains "Giao dịch" = true := by
      have := (List.filter_eq_nil_iff.1 hmiss) "Giao dịch" (by decide)
      simpa using this
    rw [if_pos hcont, if_pos hempty]
  · intro df hpath hlt
    unfold countNonNaCols at hlt
    have herr : applyPositional (renameDF df) =
        .error "Not enough columns to map by position." := by
      unfold applyPositional
      rw [if_pos hlt]
    unfold map_columns
    by_cases hmiss : (requiredCols.filter fun c => ¬ (renameDF df).cols.contains c) = []
    · rcases hpath with hne | hempty
      · exact absurd hmiss hne
      · rw [if_neg (fun hne => hne hmiss)]
        have hcont : (renameDF df).cols.contains "Giao dịch" = true := by
          have := (List.filter_eq_nil_iff.1 hmiss) "Giao dịch" (by decide)
          simpa using this
        rw [if_pos hcont, if_pos hempty]
        exact herr
    · rw [if_pos hmiss]
      exact herr
  · intro df t h
    unfold applyPositional at h
    by_cases hlt : (dropNaKeep df).length < 6
    · rw [if_pos hlt] at h
      exact absurd h (by simp)
    · rw [if_neg hlt] at h
      have ht : t.cols = requiredCols ++
          (((dropNaKeep df).map fun j => df.cols.getD j "").drop 6).map clean_header_value := by
        have h2 := Option.some.inj (congrArg Except.toOption h)
        rw [← h2]
      rw [ht]
      rw [show (6 : Nat) = requiredCols.length from rfl]
      exact List.take_left requiredCols _

/-- A frame with the six canonical labels whose transaction column is
all-NaN and which has only four non-NaN columns. -/
def dfSparse : DFrame :=
  { cols := ["STT", "Tên Use-case", "Tác nhân", "Giao dịch", "BMT", "Độ phức tạp"],
    rows := [[some "1", some "Login", some "User", none, some "b", none]] }

/-- Witness for the amended C6 at concrete frames. -/
theorem map_columns_amended_witness :
    map_columns dfSparse = applyPositional (renameDF dfSparse) ∧
    map_columns dfSparse = .error "Not enough columns to map by position." := by
  constructor
  · exact map_columns_amended.1 dfSparse rfl rfl
  · exact map_columns_amended.2.1 dfSparse (Or.inr rfl) (by decide)

/-! ## The empty-output gate of the hierarchical CLI (C8) -/

/-- **C8, counterexample**: the claim says every input yielding zero
use-case data exits with a diagnostic.  A stream holding a single Level-1
row yields one module containing no use-case at all, yet the gate passes
(`if not modules` sees a non-empty module list) and the conversion proceeds
to write a document with zero use-cases. -/
theorem main_gate_counterexample :
    readExcelRows [⟨"A", "Mod", "", "", "", ""⟩] =
        [{ code := "A", name := "Mod", groups := [] }] ∧
    totalUsecases (readExcelRows [⟨"A", "Mod", "", "", "", ""⟩]) = 0 ∧
    mainConvert [⟨"A", "Mod", "", "", "", ""⟩] =
        .ok [{ code := "A", name := "Mod", groups := [] }] := by
  exact ⟨rfl, rfl, rfl⟩

/-- **C8, amended**: the top-level conversion reports the "no use-case
data" diagnostic and exits non-zero exactly when the builder returns an
empty module list — in particular for an empty row stream (a header-only
spreadsheet) — while an input with modules but zero use-cases proceeds to
document generation. -/
theorem main_gate_amended :
    (∀ rows : List Row,
        readExcelRows rows = [] ↔
          mainConvert rows = .error "Không tìm thấy dữ liệu Use-case.") ∧
    mainConvert [] = .error "Không tìm thấy dữ liệu Use-case." := by
  constructor
  · intro rows
    constructor
    · intro h
      unfold mainConvert
      rw [if_pos h]
    · intro h
      by_contra hne
      unfold mainConvert at h
      rw [if_neg hne] at h
      exact absurd h (by simp)
  · rfl

/-! ## Output-path handling of the hierarchical CLI (C10) -/

theorem foldl_sepStep_no_sep (l : List Char) (h : ∀ c ∈ l, ¬(c = '/' ∨ c = '\\')) :
    ∀ acc, l.foldl sepStep acc = acc ++ l := by
  induction l with
  | nil =>
    intro acc
    simp
  | cons c l ih =>
    intro acc
    rw [List.foldl_cons, sepStep, if_neg (h c (List.mem_cons_self c l))]
    rw [ih (fun x hx => h x (List.mem_cons_of_mem c hx)) (acc ++ [c])]
    simp

theorem pyBasename_no_sep (f : String) (hf : ∀ c ∈ f.toList, ¬(c = '/' ∨ c = '\\')) :
    pyBasename f = f := by
  unfold pyBasename
  rw [foldl_sepStep_no_sep f.toList hf [], List.nil_append, asString_toList]

theorem pyBasename_strips_dir (d f : String) (sep : Char) (hsep : sep = '/' ∨ sep = '\\')
    (hf : ∀ c ∈ f.toList, ¬(c = '/' ∨ c = '\\')) :
    pyBasename (d ++ String.mk [sep] ++ f) = f := by
  unfold pyBasename
  rw [toList_append, toList_append, List.foldl_append, List.foldl_append]
  have h1 : (String.mk [sep]).toList.foldl sepStep (d.toList.foldl sepStep []) = [] := by
    show sepStep (d.toList.foldl sepStep []) sep = []
    rw [sepStep, if_pos hsep]
  rw [h1, foldl_sepStep_no_sep f.toList hf [], List.nil_append, asString_toList]

theorem asString_append (l1 l2 : List Char) :
    (l1 ++ l2).asString = l1.asString ++ l2.asString := rfl

theorem pyLower_append (a b : String) : pyLower (a ++ b) = pyLower a ++ pyLower b := by
  unfold pyLower
  rw [toList_append, List.map_append, asString_append]

theorem listHasPre_self_append : ∀ (p r : List Char), listHasPre p (p ++ r) = true := by
  intro p
  induction p with
  | nil => intro r; rfl
  | cons c p ih =>
    intro r
    rw [List.cons_append, listHasPre]
    simp [ih r]

theorem pyEndsWith_append_self (s : String) : pyEndsWith (s ++ ".docx") ".docx" = true := by
  unfold pyEndsWith
  rw [toList_append, List.reverse_append]
  exact listHasPre_self_append _ _

/-- **C10**: the hierarchical CLI uses only the basename of an explicit
output-path argument — any directory component (with either separator) is
silently discarded — and always writes inside the hard-coded output
directory, with a name whose lower-casing ends in `.docx` (the extension is
appended when missing). -/
theorem output_path_uses_basename_only (d f : String)
    (hf : ∀ c ∈ f.toList, ¬(c = '/' ∨ c = '\\')) :
    outputWordPath (d ++ "/" ++ f) = outputWordPath f ∧
    outputWordPath (d ++ "\\" ++ f) = outputWordPath f ∧
    (∃ fn : String, outputWordPath f = OUTPUT_DIR ++ "\\" ++ fn ∧
        pyEndsWith (pyLower fn) ".docx" = true) := by
  have hb1 : pyBasename (d ++ "/" ++ f) = pyBasename f := by
    rw [pyBasename_strips_dir d f '/' (Or.inl rfl) hf, pyBasename_no_sep f hf]
  have hb2 : pyBasename (d ++ "\\" ++ f) = pyBasename f := by
    rw [pyBasename_strips_dir d f '\\' (Or.inr rfl) hf, pyBasename_no_sep f hf]
  refine ⟨?_, ?_, ?_⟩
  · unfold outputWordPath
    rw [hb1]
  · unfold outputWordPath
    rw [hb2]
  · by_cases hd : pyEndsWith (pyLower (pyBasename f)) ".docx" = true
    · refine ⟨pyBasename f, ?_, hd⟩
      unfold outputWordPath
      rw [if_pos hd]
    · refine ⟨pyBasename f ++ ".docx", ?_, ?_⟩
      · unfold outputWordPath
        rw [if_neg hd]
      · rw [pyLower_append,
            show pyLower ".docx" = ".docx" from rfl]
        exact pyEndsWith_append_self _
/-- Witness for C10 at a concrete path argument. -/
theorem output_path_uses_basename_only_witness :
    outputWordPath "D:/out/Report" = outputWordPath "Report" ∧
    outputWordPath "Report" = "C:\\Users\\Admin\\Documents\\ids\\Report.docx" := by
  have h := output_path_uses_basename_only "D:/out" "Report" (by decide)
  exact ⟨h.1, rfl⟩

/-- The group reduction of `excel_to_docx.py`'s `main` (lines 177–193): the
group key supplies the clean sequence string and the name; each scalar field
is `group[...].iloc[0]` — the group's *first row* value, taken as-is; the
transaction field joins the *whole* stripped cells (excluded only when the
strip is empty or the raw cell lower-cases to `"nan"`, the `str()` image of
NaN), with no per-line splitting.  Rows carry the `str()` images of the
post-forward-fill cells; a whitespace-only scalar cell survives the
`replace(['nan','None',''], NA)` pass and so can be a group's first value. -/
def aggregateGroupB (sttClean nm : String) (g : List FlatRow) : FlatRow :=
  { stt := sttClean,
    name := nm,
    actor := (g.map (·.actor)).headD "",
    bmt := (g.map (·.bmt)).headD "",
    complexity := (g.map (·.complexity)).headD "",
    trans := String.intercalate "\n"
      (((g.map (·.trans)).filter fun v => pyStrip v ≠ "" ∧ pyLower v ≠ "nan").map pyStrip) }

/-- **C3, counterexample**: the claim's scope is the flat aggregation
pipeline including `excel_to_docx.py`'s variant, where it fails.  On the
group `[(actor " ", trans "A\n\nB"), (actor "User", trans "")]` that
variant's reduction returns actor `" "` — the first *row* value, whose strip
is empty, although the later value `"User"` is non-empty — and returns the
transaction text `"A\n\nB"` joined whole, whose line decomposition contains
an empty line, contradicting both the first-non-empty rule and the
every-output-line-non-empty rule. -/
theorem aggregation_counterexample :
    (aggregateGroupB "1" "Login"
        [⟨"1", "Login", " ", "", "", "A\n\nB"⟩,
         ⟨"1", "Login", "User", "", "", ""⟩]).actor = " " ∧
    pyStrip " " = "" ∧
    pyStrip "User" ≠ "" ∧
    (aggregateGroupB "1" "Login"
        [⟨"1", "Login", " ", "", "", "A\n\nB"⟩,
         ⟨"1", "Login", "User", "", "", ""⟩]).trans = "A\n\nB" ∧
    pySplitlines "A\n\nB" = ["A", "", "B"] := by
  refine ⟨rfl, rfl, by decide, rfl, rfl⟩

/-- **C3, amended**: in `app.py`'s aggregation, each scalar output field is
the first value in row order whose strip is non-empty and the transaction
output is the newline-join of the non-empty stripped lines of the non-empty
transaction cells, every joined line non-empty; in `excel_to_docx.py`'s
aggregation, each scalar output field is the group's first row value taken
as-is, and the transaction output joins the whole stripped non-empty
non-`"nan"` cells in row order without splitting their internal line
breaks. -/
theorem aggregation_amended :
    (∀ (nm : String) (g : List FlatRow),
        (aggregateGroup nm g).actor = ((g.map (·.actor)).find? fun v => pyStrip v ≠ "").getD "" ∧
        (aggregateGroup nm g).bmt = ((g.map (·.bmt)).find? fun v => pyStrip v ≠ "").getD "" ∧
        (aggregateGroup nm g).complexity =
            ((g.map (·.complexity)).find? fun v => pyStrip v ≠ "").getD "" ∧
        (aggregateGroup nm g).trans = String.intercalate "\n" (specLines (g.map (·.trans))) ∧
        (∀ l ∈ specLines (g.map (·.trans)), l ≠ "")) ∧
    (∀ (sttClean nm : String) (g : List FlatRow),
        (aggregateGroupB sttClean nm g).stt = sttClean ∧
        (aggregateGroupB sttClean nm g).name = nm ∧
        (aggregateGroupB sttClean nm g).actor = (g.map (·.actor)).getD 0 "" ∧
        (aggregateGroupB sttClean nm g).bmt = (g.map (·.bmt)).getD 0 "" ∧
        (aggregateGroupB sttClean nm g).complexity = (g.map (·.complexity)).getD 0 "" ∧
        (aggregateGroupB sttClean nm g).trans = String.intercalate "\n"
          ((g.map (·.trans)).filterMap fun v =>
            if pyStrip v ≠ "" ∧ pyLower v ≠ "nan" then some (pyStrip v) else none)) := by
  constructor
  · exact aggregation_scalars_and_lines
  · intro sttClean nm g
    have hhead : ∀ l : List String, l.headD "" = l.getD 0 "" := by
      intro l
      cases l <;> rfl
    have hfm : ∀ ls : List String,
        (ls.filterMap fun v =>
          if pyStrip v ≠ "" ∧ pyLower v ≠ "nan" then some (pyStrip v) else none) =
        (ls.filter fun v => pyStrip v ≠ "" ∧ pyLower v ≠ "nan").map pyStrip := by
      intro ls
      induction ls with
      | nil => rfl
      | cons v ls ih =>
        by_cases hv : pyStrip v ≠ "" ∧ pyLower v ≠ "nan" <;>
          simp [List.filterMap_cons, List.filter_cons, hv, ih]
    refine ⟨rfl, rfl, ?_, ?_, ?_, ?_⟩
    · rw [show (aggregateGroupB sttClean nm g).actor = (g.map (·.actor)).headD "" from rfl,
          hhead]
    · rw [show (aggregateGroupB sttClean nm g).bmt = (g.map (·.bmt)).headD "" from rfl, hhead]
    · rw [show (aggregateGroupB sttClean nm g).complexity =
            (g.map (·.complexity)).headD "" from rfl, hhead]
    · rw [hfm]
      rfl

/-- Witness for the amended C3 on concrete groups of both variants. -/
theorem aggregation_amended_witness :
    (aggregateGroup "Login"
        [⟨"1", "Login", "", "", "", "Enter creds"⟩,
         ⟨"", "Login", "User", "", "", " Click submit \nDone "⟩]).trans =
      "Enter creds\nClick submit\nDone" ∧
    (aggregateGroupB "1" "Login"
        [⟨"1", "Login", "U1", "b1", "c1", "T1\nT2"⟩]).actor = "U1" ∧
    (aggregateGroupB "1" "Login"
        [⟨"1", "Login", "U1", "b1", "c1", "T1\nT2"⟩]).trans = "T1\nT2" := by
  have h1 := (aggregation_amended.1 "Login"
    [⟨"1", "Login", "", "", "", "Enter creds"⟩,
     ⟨"", "Login", "User", "", "", " Click submit \nDone "⟩]).2.2.2.1
  have h2 := aggregation_amended.2 "1" "Login" [⟨"1", "Login", "U1", "b1", "c1", "T1\nT2"⟩]
  refine ⟨?_, ?_, ?_⟩
  · rw [h1]
    rfl
  · rw [h2.2.2.1]
    rfl
  · rw [h2.2.2.2.2.2]
    rfl
